import Mathlib

/-!
Verification of the AT91 PMC peripheral clock driver
(drivers/clk/at91/clk-peripheral.c).

The driver is shallowly embedded.  C unsigned integers become Nat: the
operations used by this driver (logical right shift, comparisons, bit
masking) never overflow, so no modular reduction is needed.  Register
transactions become explicit state passing: the regmap transport is
modelled as a register file threaded through each operation.  The clk
framework call clk_hw_get_rate on the parent is modelled as an explicit
parent-rate argument.  Fallible constructors return Except.
-/

/-- Error number EINVAL; the driver reports failure as -EINVAL. -/
def EINVAL : Int := 22

/-- PERIPHERAL_ID_MIN from the source: ids below it bypass gating. -/
def PERIPHERAL_ID_MIN : Nat := 2

/-- PERIPHERAL_ID_MAX from the source: largest id of the low bank. -/
def PERIPHERAL_ID_MAX : Nat := 31

/-- PERIPHERAL_MAX_SHIFT from the source: divider shift bound. -/
def PERIPHERAL_MAX_SHIFT : Nat := 3

/-- PERIPHERAL_MASK(id) = 1 << (id & PERIPHERAL_ID_MAX). -/
def PERIPHERAL_MASK (id : Nat) : Nat := 1 <<< (id &&& PERIPHERAL_ID_MAX)

/-- AT91_PMC_PCR_EN: enable bit (bit 28) of the PCR register. -/
def AT91_PMC_PCR_EN : Nat := 1 <<< 28

/-- Clear in x the bits selected by mask; x ^^^ (x &&& mask) is the
Nat rendering of the C expression x & ~mask. -/
def clearMask (x mask : Nat) : Nat := x ^^^ (x &&& mask)

/-- Lowest set bit of mask as a power of two (0 when mask = 0). -/
def lowBitMask (mask : Nat) : Nat := mask &&& (mask ^^^ (mask - 1))

/-- field_get from linux/bitfield.h: extract the field covered by mask,
shifted down so the lowest mask bit becomes bit 0. -/
def field_get (mask reg : Nat) : Nat := (reg &&& mask) / lowBitMask mask

/-- field_prep from linux/bitfield.h: place v into the field covered by
mask. -/
def field_prep (mask v : Nat) : Nat := (v * lowBitMask mask) &&& mask

/-- struct clk_range from pmc.h: an optional rate range; max = 0 means
no constraint is configured. -/
structure ClkRange where
  min : Nat
  max : Nat
deriving DecidableEq

/-- struct clk_pcr_layout from pmc.h: the per-generation PCR register
layout (only the fields this driver reads are modelled). -/
structure ClkPcrLayout where
  offset : Nat
  cmd : Nat
  div_mask : Nat
  pid_mask : Nat
deriving DecidableEq

/-- struct clk_peripheral: the legacy node.  Only the id matters to the
logic; the regmap handle becomes the explicit LegacyHw argument of each
operation. -/
structure ClkPeripheral where
  id : Nat
deriving DecidableEq

/-- struct clk_sam9x5_peripheral: the indirectly addressed node.  div and
auto_div are the only mutable fields; the regmap handle and the spinlock
become the explicit Sam9x5Hw argument of the register-touching
operations. -/
structure ClkSam9x5Peripheral where
  id : Nat
  range : ClkRange
  div : Nat
  layout : ClkPcrLayout
  auto_div : Bool
deriving DecidableEq

/-- Legacy bank registers, mocked as bit arrays per the spec: PCSR and
PCSR1 hold the status bits; a mask written to PCER (PCER1) sets the
corresponding status bits and a mask written to PCDR (PCDR1) clears
them. -/
structure LegacyHw where
  pcsr : Nat
  pcsr1 : Nat
deriving DecidableEq

/-- The indirectly addressed PCR register: the hardware multiplexes one
PCR word per peripheral id behind a single offset.  A plain write of a
pid selects which word is visible; a subsequent read or masked update
targets pcr selected. -/
structure Sam9x5Hw where
  pcr : Nat → Nat
  selected : Nat

/-- clk_peripheral_enable: id < 2 is a no-op; otherwise write
PERIPHERAL_MASK(id) to PCER (PCER1 when id > 31), which latches the
status bit.  The C function always returns 0, so only the register
effect is modelled. -/
def clk_peripheral_enable (periph : ClkPeripheral) (hw : LegacyHw) : LegacyHw :=
  if periph.id < PERIPHERAL_ID_MIN then hw
  else if periph.id > PERIPHERAL_ID_MAX then
    { hw with pcsr1 := hw.pcsr1 ||| PERIPHERAL_MASK periph.id }
  else
    { hw with pcsr := hw.pcsr ||| PERIPHERAL_MASK periph.id }

/-- clk_peripheral_disable: mirror of enable via the PCDR (PCDR1) pair,
which clears the latched status bit. -/
def clk_peripheral_disable (periph : ClkPeripheral) (hw : LegacyHw) : LegacyHw :=
  if periph.id < PERIPHERAL_ID_MIN then hw
  else if periph.id > PERIPHERAL_ID_MAX then
    { hw with pcsr1 := clearMask hw.pcsr1 (PERIPHERAL_MASK periph.id) }
  else
    { hw with pcsr := clearMask hw.pcsr (PERIPHERAL_MASK periph.id) }

/-- clk_peripheral_is_enabled: id < 2 reports 1 unconditionally; else
read PCSR (PCSR1 when id > 31) and test the mask bit. -/
def clk_peripheral_is_enabled (periph : ClkPeripheral) (hw : LegacyHw) : Nat :=
  if periph.id < PERIPHERAL_ID_MIN then 1
  else if periph.id > PERIPHERAL_ID_MAX then
    (if hw.pcsr1 &&& PERIPHERAL_MASK periph.id ≠ 0 then 1 else 0)
  else
    (if hw.pcsr &&& PERIPHERAL_MASK periph.id ≠ 0 then 1 else 0)

/-- Failure outcomes of the registration entry points: ERR_PTR(-EINVAL),
ERR_PTR(-ENOMEM), and ERR_PTR(ret) for a clk_hw_register failure. -/
inductive ClkErr where
  | EINVAL : ClkErr
  | ENOMEM : ClkErr
  | hwRegister (ret : Int) : ClkErr
deriving DecidableEq

/-- at91_clk_register_peripheral: reject a missing name or parent name or
id > PERIPHERAL_ID_MAX with -EINVAL; a failed kzalloc gives -ENOMEM; a
clk_hw_register failure is propagated.  Allocation success and the
clk_hw_register result are external outcomes, passed as arguments. -/
def at91_clk_register_peripheral (name parent_name : Option String) (id : Nat)
    (allocOk : Bool) (hwRegisterRet : Int) : Except ClkErr ClkPeripheral :=
  if name = none ∨ parent_name = none ∨ id > PERIPHERAL_ID_MAX then .error .EINVAL
  else if allocOk = false then .error .ENOMEM
  else if hwRegisterRet ≠ 0 then .error (.hwRegister hwRegisterRet)
  else .ok { id := id }

/-- First loop of clk_sam9x5_peripheral_autodiv, unrolled: the C loop is
for (shift = 0; shift < PERIPHERAL_MAX_SHIFT; shift++) with a break once
parent_rate >> shift <= max, so only shifts 0, 1 and 2 are tested and the
result clamps to 3. -/
def autodivShiftLoop (parentRate max : Nat) : Nat :=
  if parentRate >>> 0 ≤ max then 0
  else if parentRate >>> 1 ≤ max then 1
  else if parentRate >>> 2 ≤ max then 2
  else 3

/-- clk_sam9x5_peripheral_autodiv: a no-op unless auto_div is set.  With a
range maximum configured it fetches the parent rate (modelled as the
parentRate argument, standing for clk_hw_get_rate on the parent); a zero
parent rate aborts without resolving; otherwise the shift found by the
loop is stored and auto_div cleared.  Without a range maximum the shift
stays 0 and auto_div is cleared. -/
def clk_sam9x5_peripheral_autodiv (periph : ClkSam9x5Peripheral)
    (parentRate : Nat) : ClkSam9x5Peripheral :=
  if periph.auto_div = false then periph
  else if periph.range.max ≠ 0 then
    if parentRate = 0 then periph
    else { periph with auto_div := false,
                       div := autodivShiftLoop parentRate periph.range.max }
  else { periph with auto_div := false, div := 0 }

/-- clk_sam9x5_peripheral_enable: id < 2 is a no-op.  Otherwise, under the
lock, write the masked id to the PCR offset (selecting the word) and apply
a masked update setting the divider field, the command bits and the
enable bit on the selected word. -/
def clk_sam9x5_peripheral_enable (periph : ClkSam9x5Peripheral)
    (hw : Sam9x5Hw) : Sam9x5Hw :=
  if periph.id < PERIPHERAL_ID_MIN then hw
  else
    let sel := periph.id &&& periph.layout.pid_mask
    let mask := periph.layout.div_mask ||| periph.layout.cmd ||| AT91_PMC_PCR_EN
    let val := field_prep periph.layout.div_mask periph.div |||
               periph.layout.cmd ||| AT91_PMC_PCR_EN
    { pcr := fun i => if i = sel then clearMask (hw.pcr sel) mask ||| (val &&& mask)
                      else hw.pcr i,
      selected := sel }

/-- clk_sam9x5_peripheral_disable: id < 2 is a no-op.  Otherwise select the
word and apply a masked update over the enable and command bits, leaving
the enable bit cleared and the divider bits untouched. -/
def clk_sam9x5_peripheral_disable (periph : ClkSam9x5Peripheral)
    (hw : Sam9x5Hw) : Sam9x5Hw :=
  if periph.id < PERIPHERAL_ID_MIN then hw
  else
    let sel := periph.id &&& periph.layout.pid_mask
    let mask := AT91_PMC_PCR_EN ||| periph.layout.cmd
    let val := periph.layout.cmd
    { pcr := fun i => if i = sel then clearMask (hw.pcr sel) mask ||| (val &&& mask)
                      else hw.pcr i,
      selected := sel }

/-- clk_sam9x5_peripheral_is_enabled: id < 2 reports 1.  Otherwise select
the word, read it back and test the enable bit.  The select write changes
the hardware selection state, hence the returned Sam9x5Hw. -/
def clk_sam9x5_peripheral_is_enabled (periph : ClkSam9x5Peripheral)
    (hw : Sam9x5Hw) : Nat × Sam9x5Hw :=
  if periph.id < PERIPHERAL_ID_MIN then (1, hw)
  else
    let sel := periph.id &&& periph.layout.pid_mask
    ((if hw.pcr sel &&& AT91_PMC_PCR_EN ≠ 0 then 1 else 0),
      { hw with selected := sel })

/-- clk_sam9x5_peripheral_recalc_rate: id < 2 returns the parent rate
unchanged.  Otherwise select the word and read the status back.  When the
enable bit is set, the divider field value is frozen into div and
auto_div is cleared; when clear, autodiv runs (its clk_hw_get_rate call
modelled by the same parentRate the framework passes in).  The result is
parentRate >>> div of the updated node. -/
def clk_sam9x5_peripheral_recalc_rate (periph : ClkSam9x5Peripheral)
    (hw : Sam9x5Hw) (parentRate : Nat) : Nat × ClkSam9x5Peripheral × Sam9x5Hw :=
  if periph.id < PERIPHERAL_ID_MIN then (parentRate, periph, hw)
  else
    let sel := periph.id &&& periph.layout.pid_mask
    let status := hw.pcr sel
    let periphNew :=
      if status &&& AT91_PMC_PCR_EN ≠ 0 then
        { periph with div := field_get periph.layout.div_mask status,
                      auto_div := false }
      else clk_sam9x5_peripheral_autodiv periph parentRate
    (parentRate >>> periphNew.div, periphNew, { hw with selected := sel })

/-- Absolute difference, written exactly as the cur_diff computation of
clk_sam9x5_peripheral_round_rate does it. -/
def absDiff (a b : Nat) : Nat := if a < b then b - a else a - b

/-- First loop of clk_sam9x5_peripheral_round_rate, unrolled: for
(shift = 0; shift <= PERIPHERAL_MAX_SHIFT; shift++) with a break once
parent_rate >> shift <= max.  Returns the final shift together with the
final cur_rate: when no candidate fits, the loop exits with shift = 4 and
cur_rate still parent_rate >> 3. -/
def ceilLoop (p max : Nat) : Nat × Nat :=
  if p >>> 0 ≤ max then (0, p >>> 0)
  else if p >>> 1 ≤ max then (1, p >>> 1)
  else if p >>> 2 ≤ max then (2, p >>> 2)
  else if p >>> 3 ≤ max then (3, p >>> 3)
  else (4, p >>> 3)

/-- Second loop of clk_sam9x5_peripheral_round_rate: continue from the
ceiling shift, tracking the best rate and best difference, breaking on an
exact match (best difference 0) or once a candidate undershoots the
target.  fuel bounds the recursion; from any entry shift the C loop makes
at most 5 condition checks, so the call site passes fuel 5 and the fuel
never runs out. -/
def bestLoopF (p rate : Nat) : Nat → Nat → Nat → Nat → Nat
  | 0, _, _, bestRate => bestRate
  | fuel + 1, shift, bestDiff, bestRate =>
    if shift ≤ PERIPHERAL_MAX_SHIFT then
      let cur := p >>> shift
      let curDiff := absDiff cur rate
      let bd := if curDiff < bestDiff then curDiff else bestDiff
      let br := if curDiff < bestDiff then cur else bestRate
      if bd = 0 ∨ cur < rate then br
      else bestLoopF p rate fuel (shift + 1) bd br
    else bestRate

/-- clk_sam9x5_peripheral_round_rate: id < 2 or no range maximum returns
the parent rate unchanged.  Otherwise run the ceiling loop (the C guard
if (periph->range.max) around it is always true here); if the target is
at or above the final cur_rate return it, else continue with the best-fit
loop seeded with best_rate = cur_rate and best_diff = cur_rate - rate.
The C function only reads through the parent_rate pointer. -/
def clk_sam9x5_peripheral_round_rate (periph : ClkSam9x5Peripheral)
    (rate parentRate : Nat) : Nat :=
  if periph.id < PERIPHERAL_ID_MIN ∨ periph.range.max = 0 then parentRate
  else if rate ≥ (ceilLoop parentRate periph.range.max).2 then
    (ceilLoop parentRate periph.range.max).2
  else
    bestLoopF parentRate rate 5 (ceilLoop parentRate periph.range.max).1
      ((ceilLoop parentRate periph.range.max).2 - rate)
      (ceilLoop parentRate periph.range.max).2

/-- Shift-match loop of clk_sam9x5_peripheral_set_rate, unrolled: the
first shift in 0..PERIPHERAL_MAX_SHIFT with parent_rate >> shift == rate,
none if no shift matches. -/
def setRateShift (p rate : Nat) : Option Nat :=
  if p >>> 0 = rate then some 0
  else if p >>> 1 = rate then some 1
  else if p >>> 2 = rate then some 2
  else if p >>> 3 = rate then some 3
  else none

/-- clk_sam9x5_peripheral_set_rate: id < 2 or no range maximum accepts
only rate == parent_rate.  With a range maximum, a rate above it is
rejected; otherwise an exact shift match stores the shift into div and
clears auto_div, and no match is -EINVAL.  The C function performs no
register access. -/
def clk_sam9x5_peripheral_set_rate (periph : ClkSam9x5Peripheral)
    (rate parentRate : Nat) : Int × ClkSam9x5Peripheral :=
  if periph.id < PERIPHERAL_ID_MIN ∨ periph.range.max = 0 then
    (if parentRate = rate then ((0 : Int), periph) else (-EINVAL, periph))
  else if periph.range.max ≠ 0 ∧ rate > periph.range.max then (-EINVAL, periph)
  else
    match setRateShift parentRate rate with
    | some shift => ((0 : Int), { periph with auto_div := false, div := shift })
    | none => (-EINVAL, periph)

/-- at91_clk_register_sam9x5_peripheral: reject a missing name or parent
name with -EINVAL (the id is not validated); a failed kzalloc gives
-ENOMEM; a clk_hw_register failure is propagated.  On success div starts
at 0, auto_div is seeded true exactly when the layout has a divider
field, and autodiv runs once against the current parent rate. -/
def at91_clk_register_sam9x5_peripheral (layout : ClkPcrLayout)
    (name parent_name : Option String) (id : Nat) (range : ClkRange)
    (allocOk : Bool) (hwRegisterRet : Int) (parentRate : Nat) :
    Except ClkErr ClkSam9x5Peripheral :=
  if name = none ∨ parent_name = none then .error .EINVAL
  else if allocOk = false then .error .ENOMEM
  else if hwRegisterRet ≠ 0 then .error (.hwRegister hwRegisterRet)
  else .ok (clk_sam9x5_peripheral_autodiv
    { id := id, range := range, div := 0, layout := layout,
      auto_div := layout.div_mask != 0 } parentRate)

/-- The operations the clk framework can invoke on an indirect node, with
the framework-supplied arguments.  The hardware readback of recalc-rate
comes from the Sam9x5Hw component of the state. -/
inductive PeriphOp where
  | enable : PeriphOp
  | disable : PeriphOp
  | isEnabled : PeriphOp
  | recalcRate (parentRate : Nat) : PeriphOp
  | roundRate (rate parentRate : Nat) : PeriphOp
  | setRate (rate parentRate : Nat) : PeriphOp
  | autodiv (parentRate : Nat) : PeriphOp

/-- One step of the indirect-node state machine: the node fields together
with the hardware register file, transformed by one framework call.
round_rate only reads; enable, disable and is_enabled touch only the
hardware; set_rate and autodiv touch only the node. -/
def applyOp (s : ClkSam9x5Peripheral × Sam9x5Hw) :
    PeriphOp → ClkSam9x5Peripheral × Sam9x5Hw
  | .enable => (s.1, clk_sam9x5_peripheral_enable s.1 s.2)
  | .disable => (s.1, clk_sam9x5_peripheral_disable s.1 s.2)
  | .isEnabled => (s.1, (clk_sam9x5_peripheral_is_enabled s.1 s.2).2)
  | .recalcRate pr => ((clk_sam9x5_peripheral_recalc_rate s.1 s.2 pr).2.1,
                       (clk_sam9x5_peripheral_recalc_rate s.1 s.2 pr).2.2)
  | .roundRate _ _ => s
  | .setRate r pr => ((clk_sam9x5_peripheral_set_rate s.1 r pr).2, s.2)
  | .autodiv pr => (clk_sam9x5_peripheral_autodiv s.1 pr, s.2)

/-- A concrete PCR layout for witnesses: div_mask covers bits 17..16 and
pid_mask bits 5..0. -/
def layoutD : ClkPcrLayout := ⟨0, 0, 196608, 63⟩

/-- A concrete indirect node for witnesses: id 2, range maximum 83000000,
auto_div pending. -/
def periphA : ClkSam9x5Peripheral := ⟨2, ⟨0, 83000000⟩, 0, layoutD, true⟩

/-- A concrete hardware state for witnesses: every PCR word reads back as
enabled with divider field 2 (bit 28 plus 2 << 16). -/
def hwEn : Sam9x5Hw := ⟨fun _ => 268566528, 0⟩

/-- A concrete all-zero hardware state for witnesses. -/
def hw0 : Sam9x5Hw := ⟨fun _ => 0, 0⟩

/-- Right shifting by a larger amount gives a smaller or equal value. -/
theorem shiftRight_anti (p : Nat) {a b : Nat} (h : a ≤ b) : p >>> b ≤ p >>> a := by
  have hb : b = a + (b - a) := by omega
  rw [hb, Nat.shiftRight_add, Nat.shiftRight_eq_div_pow]
  exact Nat.div_le_self _ _

/-- Invariant characterization of the best-fit loop: starting from any
shift with best_diff equal to the distance of best_rate from the target,
the result is best_rate or a candidate at a shift in the remaining range,
its distance never exceeds best_diff, and it is at least as close to the
target as every remaining candidate. -/
theorem bestLoopF_spec (p rate : Nat) :
    ∀ (fuel shift bd br : Nat), 5 ≤ fuel + shift → bd = absDiff br rate →
    (bestLoopF p rate fuel shift bd br = br ∨
      ∃ k, shift ≤ k ∧ k ≤ 3 ∧ bestLoopF p rate fuel shift bd br = p >>> k) ∧
    absDiff (bestLoopF p rate fuel shift bd br) rate ≤ bd ∧
    (∀ j, shift ≤ j → j ≤ 3 →
      absDiff (bestLoopF p rate fuel shift bd br) rate ≤ absDiff (p >>> j) rate) := by
  intro fuel
  induction fuel with
  | zero =>
    intro shift bd br hfuel hbd
    refine ⟨Or.inl rfl, ?_, ?_⟩
    · exact le_of_eq hbd.symm
    · intro j hj1 hj2; omega
  | succ fuel ih =>
    intro shift bd br hfuel hbd
    by_cases hs : shift ≤ PERIPHERAL_MAX_SHIFT
    · have hs3 : shift ≤ 3 := by
        simpa [PERIPHERAL_MAX_SHIFT] using hs
      rw [bestLoopF, if_pos hs]
      simp only []
      by_cases hlt : absDiff (p >>> shift) rate < bd
      · rw [if_pos hlt, if_pos hlt]
        by_cases hbr : absDiff (p >>> shift) rate = 0 ∨ p >>> shift < rate
        · rw [if_pos hbr]
          refine ⟨Or.inr ⟨shift, le_refl _, hs3, rfl⟩, le_of_lt hlt, ?_⟩
          intro j hj1 hj2
          rcases hbr with h0 | hur
          · rw [h0]; exact Nat.zero_le _
          · have hmono : p >>> j ≤ p >>> shift := shiftRight_anti p hj1
            simp only [absDiff] at *
            split_ifs at * <;> omega
        · rw [if_neg hbr]
          obtain ⟨m1, m2, m3⟩ := ih (shift + 1) (absDiff (p >>> shift) rate)
            (p >>> shift) (by omega) rfl
          refine ⟨?_, le_trans m2 (le_of_lt hlt), ?_⟩
          · rcases m1 with h | ⟨k, hk1, hk2, hk3⟩
            · exact Or.inr ⟨shift, le_refl _, hs3, h⟩
            · exact Or.inr ⟨k, by omega, hk2, hk3⟩
          · intro j hj1 hj2
            by_cases hj : j = shift
            · subst hj; exact m2
            · exact m3 j (by omega) hj2
      · rw [if_neg hlt, if_neg hlt]
        by_cases hbr : bd = 0 ∨ p >>> shift < rate
        · rw [if_pos hbr]
          refine ⟨Or.inl rfl, le_of_eq hbd.symm, ?_⟩
          intro j hj1 hj2
          rcases hbr with h0 | hur
          · rw [hbd] at h0; rw [h0]; exact Nat.zero_le _
          · have hmono : p >>> j ≤ p >>> shift := shiftRight_anti p hj1
            rw [← hbd]
            have hcd : bd ≤ absDiff (p >>> shift) rate := by omega
            simp only [absDiff] at *
            split_ifs at * <;> omega
        · rw [if_neg hbr]
          obtain ⟨m1, m2, m3⟩ := ih (shift + 1) bd br (by omega) hbd
          refine ⟨?_, m2, ?_⟩
          · rcases m1 with h | ⟨k, hk1, hk2, hk3⟩
            · exact Or.inl h
            · exact Or.inr ⟨k, by omega, hk2, hk3⟩
          · intro j hj1 hj2
            by_cases hj : j = shift
            · subst hj; exact le_trans m2 (by omega)
            · exact m3 j (by omega) hj2
    · rw [bestLoopF, if_neg hs]
      have hs4 : 4 ≤ shift := by
        simp only [PERIPHERAL_MAX_SHIFT] at hs; omega
      refine ⟨Or.inl rfl, le_of_eq hbd.symm, ?_⟩
      intro j hj1 hj2; omega

/-- The unrolled ceiling loop lands exactly on the smallest shift whose
candidate is at or below the maximum. -/
theorem ceilLoop_eq_of (p m s : Nat) (hs : s ≤ 3) (hle : p >>> s ≤ m)
    (hmin : ∀ t, t < s → m < p >>> t) : ceilLoop p m = (s, p >>> s) := by
  have h0 := fun h => hmin 0 h
  have h1 := fun h => hmin 1 h
  have h2 := fun h => hmin 2 h
  interval_cases s
  · rw [ceilLoop, if_pos hle]
  · rw [ceilLoop, if_neg (by have := h0 (by omega); omega), if_pos hle]
  · rw [ceilLoop, if_neg (by have := h0 (by omega); omega),
      if_neg (by have := h1 (by omega); omega), if_pos hle]
  · rw [ceilLoop, if_neg (by have := h0 (by omega); omega),
      if_neg (by have := h1 (by omega); omega),
      if_neg (by have := h2 (by omega); omega), if_pos hle]

/-- If the deepest candidate fits under the maximum, some smallest fitting
shift in 0..3 exists. -/
theorem exists_least_fitting_shift (p m : Nat) (h3 : p >>> 3 ≤ m) :
    ∃ s, s ≤ 3 ∧ p >>> s ≤ m ∧ ∀ t, t < s → m < p >>> t := by
  by_cases c0 : p >>> 0 ≤ m
  · exact ⟨0, by omega, c0, by omega⟩
  · by_cases c1 : p >>> 1 ≤ m
    · refine ⟨1, by omega, c1, ?_⟩
      intro t ht; interval_cases t; omega
    · by_cases c2 : p >>> 2 ≤ m
      · refine ⟨2, by omega, c2, ?_⟩
        intro t ht; interval_cases t <;> omega
      · refine ⟨3, by omega, h3, ?_⟩
        intro t ht; interval_cases t <;> omega

/-- Whenever the best-fit loop is entered from a fitting ceiling shift, its
result stays at or below the maximum. -/
theorem bestLoopF_le_max (p rate m s : Nat) (hs : s ≤ 3) (hle : p >>> s ≤ m)
    (hrate : rate < p >>> s) :
    bestLoopF p rate 5 s (p >>> s - rate) (p >>> s) ≤ m := by
  have hbd : p >>> s - rate = absDiff (p >>> s) rate := by
    simp only [absDiff]; rw [if_neg (by omega)]
  obtain ⟨m1, -, -⟩ := bestLoopF_spec p rate 5 s _ _ (by omega) hbd
  rcases m1 with h | ⟨k, hk1, hk2, h⟩
  · rw [h]; exact hle
  · rw [h]; exact le_trans (shiftRight_anti p hk1) hle

/-- Unfolding of round_rate through a known ceiling-loop outcome. -/
theorem round_rate_eq_of_ceil (periph : ClkSam9x5Peripheral) (rate p s : Nat)
    (hid : ¬(periph.id < PERIPHERAL_ID_MIN ∨ periph.range.max = 0))
    (hceil : ceilLoop p periph.range.max = (s, p >>> s)) :
    clk_sam9x5_peripheral_round_rate periph rate p =
      if rate ≥ p >>> s then p >>> s
      else bestLoopF p rate 5 s (p >>> s - rate) (p >>> s) := by
  rw [clk_sam9x5_peripheral_round_rate, if_neg hid, hceil]

/-- Claim C1 (counterexample): with range maximum 1 and parent rate 100,
every candidate exceeds the maximum and round_rate returns
parent_rate >> 3 = 12, which is above the configured maximum. -/
theorem round_rate_exceeds_max_counterexample :
    (⟨2, ⟨0, 1⟩, 0, ⟨0, 0, 0, 0⟩, false⟩ : ClkSam9x5Peripheral).range.max <
      clk_sam9x5_peripheral_round_rate
        ⟨2, ⟨0, 1⟩, 0, ⟨0, 0, 0, 0⟩, false⟩ 200 100 := by decide

/-- Claim C1 (amended): for an indirect node with id at least 2 and a
nonzero range maximum, round_rate never returns a value above the
maximum provided at least one candidate fits, that is provided
parent_rate >> 3 is at or below the maximum; without that proviso the
loop exhausts and parent_rate >> 3 is returned even though it exceeds
the maximum. -/
theorem round_rate_le_max_of_deepest_fits :
    ∀ (periph : ClkSam9x5Peripheral) (rate p : Nat),
    2 ≤ periph.id → periph.range.max ≠ 0 → p >>> 3 ≤ periph.range.max →
    clk_sam9x5_peripheral_round_rate periph rate p ≤ periph.range.max := by
  intro periph rate p hid hmax h3
  obtain ⟨s, hs, hle, hmin⟩ := exists_least_fitting_shift p periph.range.max h3
  rw [round_rate_eq_of_ceil periph rate p s
    (by simp only [PERIPHERAL_ID_MIN]; omega)
    (ceilLoop_eq_of p periph.range.max s hs hle hmin)]
  by_cases hr : rate ≥ p >>> s
  · rw [if_pos hr]; exact hle
  · rw [if_neg hr]
    exact bestLoopF_le_max p rate periph.range.max s hs hle (by omega)

/-- Claim C1 witness: at parent rate 133000000 with maximum 83000000 the
amended bound applies and the result stays at or below the maximum. -/
theorem round_rate_le_max_witness :
    clk_sam9x5_peripheral_round_rate periphA 70000000 133000000 ≤ periphA.range.max :=
  round_rate_le_max_of_deepest_fits periphA 70000000 133000000
    (by decide) (by decide) (by decide)

/-- Claim C2: with a ceiling shift s (the smallest shift in 0..3 whose
candidate fits under the maximum), round_rate returns the ceiling
candidate whenever the target is at or above it, and otherwise returns a
candidate at some shift in s..3 that minimizes the absolute difference to
the target over all shifts in s..3; in particular with parent rate
133000000, maximum 83000000 and target 70000000 it returns 66500000. -/
theorem round_rate_ceiling_and_best :
    (∀ (periph : ClkSam9x5Peripheral) (rate p s : Nat),
      2 ≤ periph.id → periph.range.max ≠ 0 →
      s ≤ 3 → p >>> s ≤ periph.range.max →
      (∀ t, t < s → periph.range.max < p >>> t) →
      (p >>> s ≤ rate → clk_sam9x5_peripheral_round_rate periph rate p = p >>> s) ∧
      (rate < p >>> s →
        (∃ k, s ≤ k ∧ k ≤ 3 ∧
          clk_sam9x5_peripheral_round_rate periph rate p = p >>> k) ∧
        (∀ j, s ≤ j → j ≤ 3 →
          absDiff (clk_sam9x5_peripheral_round_rate periph rate p) rate ≤
            absDiff (p >>> j) rate))) ∧
    clk_sam9x5_peripheral_round_rate periphA 70000000 133000000 = 66500000 := by
  constructor
  · intro periph rate p s hid hmax hs hle hmin
    rw [round_rate_eq_of_ceil periph rate p s
      (by simp only [PERIPHERAL_ID_MIN]; omega)
      (ceilLoop_eq_of p periph.range.max s hs hle hmin)]
    constructor
    · intro hge; rw [if_pos hge]
    · intro hlt
      rw [if_neg (by omega)]
      have hbd : p >>> s - rate = absDiff (p >>> s) rate := by
        simp only [absDiff]; rw [if_neg (by omega)]
      obtain ⟨m1, m2, m3⟩ := bestLoopF_spec p rate 5 s _ _ (by omega) hbd
      refine ⟨?_, m3⟩
      rcases m1 with h | hk
      · exact ⟨s, le_refl _, hs, h⟩
      · exact hk
  · decide

/-- Claim C2 witness: the claim applied at the documented example, via the
ceiling branch at shift 1. -/
theorem round_rate_ceiling_witness :
    clk_sam9x5_peripheral_round_rate periphA 70000000 133000000 = 133000000 >>> 1 :=
  (round_rate_ceiling_and_best.1 periphA 70000000 133000000 1 (by decide) (by decide)
    (by decide) (by decide) (by decide)).1 (by decide)

/-- The unrolled set-rate match loop returns none exactly when no shift in
0..3 matches the requested rate. -/
theorem setRateShift_none_iff (p rate : Nat) :
    setRateShift p rate = none ↔ ∀ s, s ≤ 3 → p >>> s ≠ rate := by
  rw [setRateShift]
  constructor
  · intro h
    split_ifs at h with h0 h1 h2 h3
    intro s hs
    interval_cases s <;> assumption
  · intro h
    rw [if_neg (h 0 (by omega)), if_neg (h 1 (by omega)),
      if_neg (h 2 (by omega)), if_neg (h 3 (by omega))]

/-- A successful match loop outcome is a matching shift in 0..3. -/
theorem setRateShift_some (p rate s : Nat) (h : setRateShift p rate = some s) :
    s ≤ 3 ∧ p >>> s = rate := by
  rw [setRateShift] at h
  split_ifs at h with h0 h1 h2 h3
  · cases h; exact ⟨by omega, h0⟩
  · cases h; exact ⟨by omega, h1⟩
  · cases h; exact ⟨by omega, h2⟩
  · cases h; exact ⟨by omega, h3⟩

/-- Claim C4: set_rate behavior.  With id < 2 or no range maximum, only
rate == parent_rate succeeds and nothing changes; with id at least 2 and
a range maximum, a rate above the maximum fails with -EINVAL, an exact
shift match succeeds storing a matching shift in 0..3 and clearing
auto_div, and no match fails with -EINVAL. -/
theorem set_rate_full_behavior :
    ∀ (periph : ClkSam9x5Peripheral) (rate p : Nat),
    (periph.id < 2 ∨ periph.range.max = 0 →
      (p = rate → clk_sam9x5_peripheral_set_rate periph rate p = (0, periph)) ∧
      (p ≠ rate → clk_sam9x5_peripheral_set_rate periph rate p = (-EINVAL, periph))) ∧
    (2 ≤ periph.id → periph.range.max ≠ 0 →
      (periph.range.max < rate →
        clk_sam9x5_peripheral_set_rate periph rate p = (-EINVAL, periph)) ∧
      (rate ≤ periph.range.max →
        ((∃ s, s ≤ 3 ∧ p >>> s = rate) →
          (clk_sam9x5_peripheral_set_rate periph rate p).1 = 0 ∧
          (clk_sam9x5_peripheral_set_rate periph rate p).2.auto_div = false ∧
          (clk_sam9x5_peripheral_set_rate periph rate p).2.div ≤ 3 ∧
          p >>> (clk_sam9x5_peripheral_set_rate periph rate p).2.div = rate) ∧
        ((∀ s, s ≤ 3 → p >>> s ≠ rate) →
          clk_sam9x5_peripheral_set_rate periph rate p = (-EINVAL, periph)))) := by
  intro periph rate p
  constructor
  · intro hguard
    have hg : periph.id < PERIPHERAL_ID_MIN ∨ periph.range.max = 0 := hguard
    refine ⟨?_, ?_⟩
    · intro hpr; rw [clk_sam9x5_peripheral_set_rate, if_pos hg, if_pos hpr]
    · intro hpr; rw [clk_sam9x5_peripheral_set_rate, if_pos hg, if_neg hpr]
  · intro hid hmax
    have hg : ¬(periph.id < PERIPHERAL_ID_MIN ∨ periph.range.max = 0) := by
      simp only [PERIPHERAL_ID_MIN]; omega
    refine ⟨?_, ?_⟩
    · intro hrate
      rw [clk_sam9x5_peripheral_set_rate, if_neg hg, if_pos ⟨hmax, hrate⟩]
    · intro hrate
      have hg2 : ¬(periph.range.max ≠ 0 ∧ rate > periph.range.max) := by
        rintro ⟨-, hgt⟩; omega
      refine ⟨?_, ?_⟩
      · rintro ⟨s, hs, hmatch⟩
        rw [clk_sam9x5_peripheral_set_rate, if_neg hg, if_neg hg2]
        cases hsr : setRateShift p rate with
        | none => exact absurd hmatch ((setRateShift_none_iff p rate).mp hsr s hs)
        | some s0 =>
          obtain ⟨hs0, hm0⟩ := setRateShift_some p rate s0 hsr
          exact ⟨rfl, rfl, hs0, hm0⟩
      · intro hnone
        rw [clk_sam9x5_peripheral_set_rate, if_neg hg, if_neg hg2,
          (setRateShift_none_iff p rate).mpr hnone]

/-- Claim C4 witness: the documented example set_rate(target 50000000,
parent 133000000, maximum 83000000) matches no shift and fails with
-EINVAL leaving the node untouched. -/
theorem set_rate_full_behavior_witness :
    clk_sam9x5_peripheral_set_rate periphA 50000000 133000000 = (-EINVAL, periphA) :=
  (((set_rate_full_behavior periphA 50000000 133000000).2 (by decide) (by decide)).2
    (by decide)).2 (by decide)

/-- Claim C3 (counterexample): with range maximum 10, parent rate 100 and
requested rate 100, shift 0 matches exactly yet set_rate fails, because
the rate exceeds the configured maximum; so success is not equivalent to
the existence of a matching shift. -/
theorem set_rate_iff_counterexample :
    (clk_sam9x5_peripheral_set_rate
        ⟨2, ⟨0, 10⟩, 0, ⟨0, 0, 0, 0⟩, false⟩ 100 100).1 ≠ 0 ∧
    (100 : Nat) >>> 0 = 100 ∧
    (⟨2, ⟨0, 10⟩, 0, ⟨0, 0, 0, 0⟩, false⟩ : ClkSam9x5Peripheral).range.max ≠ 0 := by
  decide

/-- Claim C3 (amended): set_rate returns 0 or -EINVAL; with id at least 2
and a range maximum it succeeds iff the rate is at or below the maximum
and some shift in 0..3 matches exactly; with id < 2 or no range maximum
it succeeds iff the rate equals the parent rate. -/
theorem set_rate_success_iff_amended :
    ∀ (periph : ClkSam9x5Peripheral) (rate p : Nat),
    ((clk_sam9x5_peripheral_set_rate periph rate p).1 = 0 ∨
      (clk_sam9x5_peripheral_set_rate periph rate p).1 = -EINVAL) ∧
    (2 ≤ periph.id → periph.range.max ≠ 0 →
      ((clk_sam9x5_peripheral_set_rate periph rate p).1 = 0 ↔
        rate ≤ periph.range.max ∧ ∃ s, s ≤ 3 ∧ p >>> s = rate)) ∧
    (periph.id < 2 ∨ periph.range.max = 0 →
      ((clk_sam9x5_peripheral_set_rate periph rate p).1 = 0 ↔ p = rate)) := by
  intro periph rate p
  refine ⟨?_, ?_, ?_⟩
  · rw [clk_sam9x5_peripheral_set_rate]
    split_ifs <;> try simp
    cases setRateShift p rate <;> simp
  · intro hid hmax
    have hg : ¬(periph.id < PERIPHERAL_ID_MIN ∨ periph.range.max = 0) := by
      simp only [PERIPHERAL_ID_MIN]; omega
    rw [clk_sam9x5_peripheral_set_rate, if_neg hg]
    by_cases hgt : periph.range.max ≠ 0 ∧ rate > periph.range.max
    · rw [if_pos hgt]
      constructor
      · intro h; exact absurd h (by simp [EINVAL])
      · rintro ⟨hle, -⟩; omega
    · rw [if_neg hgt]
      have hle : rate ≤ periph.range.max := by
        rcases Nat.lt_or_ge periph.range.max rate with h | h
        · exact absurd ⟨hmax, h⟩ hgt
        · exact h
      cases hsr : setRateShift p rate with
      | none =>
        constructor
        · intro h; simp [EINVAL] at h
        · rintro ⟨-, s, hs, hmatch⟩
          exact absurd hmatch ((setRateShift_none_iff p rate).mp hsr s hs)
      | some s0 =>
        obtain ⟨hs0, hm0⟩ := setRateShift_some p rate s0 hsr
        exact ⟨fun _ => ⟨hle, s0, hs0, hm0⟩, fun _ => rfl⟩
  · intro hguard
    have hg : periph.id < PERIPHERAL_ID_MIN ∨ periph.range.max = 0 := hguard
    rw [clk_sam9x5_peripheral_set_rate, if_pos hg]
    by_cases hpr : p = rate
    · rw [if_pos hpr]; simpa using hpr
    · rw [if_neg hpr]
      constructor
      · intro h; simp [EINVAL] at h
      · intro h; exact absurd h hpr

/-- Claim C3 witness: the documented example set_rate(target 16625000,
parent 133000000, maximum 83000000) succeeds through the exact match at
shift 3. -/
theorem set_rate_success_iff_witness :
    (clk_sam9x5_peripheral_set_rate periphA 16625000 133000000).1 = 0 :=
  ((set_rate_success_iff_amended periphA 16625000 133000000).2.1 (by decide)
    (by decide)).mpr ⟨by decide, 3, by decide, by decide⟩

/-- Claim C10: set_rate touches no hardware state (the C body contains no
regmap call, so the hardware component of the state is passed through
unchanged), preserves id, range and layout, and on failure leaves the
node exactly as it was. -/
theorem set_rate_frame_conditions :
    ∀ (periph : ClkSam9x5Peripheral) (hw : Sam9x5Hw) (rate p : Nat),
    (applyOp (periph, hw) (PeriphOp.setRate rate p)).2 = hw ∧
    (clk_sam9x5_peripheral_set_rate periph rate p).2.id = periph.id ∧
    (clk_sam9x5_peripheral_set_rate periph rate p).2.range = periph.range ∧
    (clk_sam9x5_peripheral_set_rate periph rate p).2.layout = periph.layout ∧
    ((clk_sam9x5_peripheral_set_rate periph rate p).1 ≠ 0 →
      (clk_sam9x5_peripheral_set_rate periph rate p).2 = periph) := by
  intro periph hw rate p
  refine ⟨rfl, ?_⟩
  rw [clk_sam9x5_peripheral_set_rate]
  split_ifs
  · refine ⟨?_, ?_, ?_, fun _ => ?_⟩ <;> trivial
  · refine ⟨?_, ?_, ?_, fun _ => ?_⟩ <;> trivial
  · refine ⟨?_, ?_, ?_, fun _ => ?_⟩ <;> trivial
  · cases hsr : setRateShift p rate with
    | none => refine ⟨?_, ?_, ?_, fun _ => ?_⟩ <;> trivial
    | some s0 =>
      refine ⟨?_, ?_, ?_, fun h => absurd ?_ h⟩ <;> trivial

/-- Claim C10 witness: a failing set_rate call (no shift of 100 gives 7)
leaves the node exactly as it was. -/
theorem set_rate_frame_witness :
    (clk_sam9x5_peripheral_set_rate ⟨2, ⟨0, 10⟩, 0, layoutD, true⟩ 7 100).2 =
      ⟨2, ⟨0, 10⟩, 0, layoutD, true⟩ :=
  (set_rate_frame_conditions ⟨2, ⟨0, 10⟩, 0, layoutD, true⟩ hw0 7 100).2.2.2.2
    (by decide)

/-- Claim C5: recalc_rate returns the parent rate unchanged for id < 2;
otherwise, when the selected PCR word has the enable bit set, the divider
field value is stored into div and auto_div cleared, when clear autodiv
runs, and either way the result is the parent rate shifted right by the
updated divider. -/
theorem recalc_rate_behavior :
    ∀ (periph : ClkSam9x5Peripheral) (hw : Sam9x5Hw) (pr : Nat),
    (periph.id < 2 →
      clk_sam9x5_peripheral_recalc_rate periph hw pr = (pr, periph, hw)) ∧
    (2 ≤ periph.id →
      (hw.pcr (periph.id &&& periph.layout.pid_mask) &&& AT91_PMC_PCR_EN ≠ 0 →
        (clk_sam9x5_peripheral_recalc_rate periph hw pr).2.1.div =
          field_get periph.layout.div_mask
            (hw.pcr (periph.id &&& periph.layout.pid_mask)) ∧
        (clk_sam9x5_peripheral_recalc_rate periph hw pr).2.1.auto_div = false ∧
        (clk_sam9x5_peripheral_recalc_rate periph hw pr).1 =
          pr >>> (clk_sam9x5_peripheral_recalc_rate periph hw pr).2.1.div) ∧
      (hw.pcr (periph.id &&& periph.layout.pid_mask) &&& AT91_PMC_PCR_EN = 0 →
        (clk_sam9x5_peripheral_recalc_rate periph hw pr).2.1 =
          clk_sam9x5_peripheral_autodiv periph pr ∧
        (clk_sam9x5_peripheral_recalc_rate periph hw pr).1 =
          pr >>> (clk_sam9x5_peripheral_recalc_rate periph hw pr).2.1.div)) := by
  intro periph hw pr
  constructor
  · intro hid
    have hg : periph.id < PERIPHERAL_ID_MIN := hid
    rw [clk_sam9x5_peripheral_recalc_rate, if_pos hg]
  · intro hid
    have hg : ¬(periph.id < PERIPHERAL_ID_MIN) := by
      simp only [PERIPHERAL_ID_MIN]; omega
    constructor
    · intro hen
      rw [clk_sam9x5_peripheral_recalc_rate, if_neg hg]
      simp only [if_pos hen]
      refine ⟨?_, ?_, ?_⟩ <;> trivial
    · intro hen
      rw [clk_sam9x5_peripheral_recalc_rate, if_neg hg]
      have hne : ¬(hw.pcr (periph.id &&& periph.layout.pid_mask) &&&
          AT91_PMC_PCR_EN ≠ 0) := by omega
      simp only [if_neg hne]
      refine ⟨?_, ?_⟩ <;> trivial

/-- Claim C5 witness: hardware reads back enabled with divider field 2
(layout div_mask covers bits 17..16): div becomes 2, auto_div clears, and
the result is 100 >> 2. -/
theorem recalc_rate_behavior_witness :
    (clk_sam9x5_peripheral_recalc_rate ⟨2, ⟨0, 0⟩, 0, layoutD, true⟩ hwEn 100).2.1.div
        = 2 ∧
    (clk_sam9x5_peripheral_recalc_rate ⟨2, ⟨0, 0⟩, 0, layoutD, true⟩ hwEn 100).2.1.auto_div
        = false ∧
    (clk_sam9x5_peripheral_recalc_rate ⟨2, ⟨0, 0⟩, 0, layoutD, true⟩ hwEn 100).1
        = 25 := by
  have h := ((recalc_rate_behavior ⟨2, ⟨0, 0⟩, 0, layoutD, true⟩ hwEn 100).2
    (by decide)).1 (by decide)
  have hdiv : (clk_sam9x5_peripheral_recalc_rate
      ⟨2, ⟨0, 0⟩, 0, layoutD, true⟩ hwEn 100).2.1.div = 2 := by
    rw [h.1]; decide
  refine ⟨hdiv, h.2.1, ?_⟩
  rw [h.2.2, hdiv]
  decide

/-- Each branch of the unrolled autodiv loop stays within the shift
bound. -/
theorem autodivShiftLoop_le_three (p m : Nat) : autodivShiftLoop p m ≤ 3 := by
  rw [autodivShiftLoop]; split_ifs <;> omega

/-- Every shift below the one autodiv picks has a candidate above the
maximum. -/
theorem autodivShiftLoop_min (p m : Nat) :
    ∀ t, t < autodivShiftLoop p m → m < p >>> t := by
  intro t ht
  rw [autodivShiftLoop] at ht
  split_ifs at ht with c0 c1 c2
  · omega
  · interval_cases t
    omega
  · interval_cases t <;> omega
  · interval_cases t <;> omega

/-- The shift autodiv picks either fits under the maximum or is the
clamped value 3. -/
theorem autodivShiftLoop_fits_or_three (p m : Nat) :
    p >>> autodivShiftLoop p m ≤ m ∨ autodivShiftLoop p m = 3 := by
  rw [autodivShiftLoop]
  split_ifs with c0 c1 c2
  · exact Or.inl c0
  · exact Or.inl c1
  · exact Or.inl c2
  · exact Or.inr rfl

/-- Claim C6: on a node with auto_div set and a nonzero range maximum,
autodiv with parent rate 0 changes nothing (flag stays set); with a
nonzero parent rate it clears the flag and stores the smallest shift in
0..3 whose candidate fits under the maximum (3 when none fits), and any
later autodiv call is a no-op, so resolution completes exactly once. -/
theorem autodiv_resolution_behavior :
    ∀ (periph : ClkSam9x5Peripheral) (p : Nat),
    periph.auto_div = true → periph.range.max ≠ 0 →
    clk_sam9x5_peripheral_autodiv periph 0 = periph ∧
    (p ≠ 0 →
      (clk_sam9x5_peripheral_autodiv periph p).auto_div = false ∧
      (clk_sam9x5_peripheral_autodiv periph p).div ≤ 3 ∧
      (∀ t, t < (clk_sam9x5_peripheral_autodiv periph p).div →
        periph.range.max < p >>> t) ∧
      (p >>> (clk_sam9x5_peripheral_autodiv periph p).div ≤ periph.range.max ∨
        (clk_sam9x5_peripheral_autodiv periph p).div = 3) ∧
      (∀ q, clk_sam9x5_peripheral_autodiv (clk_sam9x5_peripheral_autodiv periph p) q =
        clk_sam9x5_peripheral_autodiv periph p)) := by
  intro periph p hauto hmax
  have hna : ¬(periph.auto_div = false) := by simp [hauto]
  constructor
  · rw [clk_sam9x5_peripheral_autodiv, if_neg hna, if_pos hmax, if_pos rfl]
  · intro hp
    rw [clk_sam9x5_peripheral_autodiv, if_neg hna, if_pos hmax, if_neg hp]
    refine ⟨rfl, autodivShiftLoop_le_three p periph.range.max,
      autodivShiftLoop_min p periph.range.max,
      autodivShiftLoop_fits_or_three p periph.range.max, ?_⟩
    intro q
    simp [clk_sam9x5_peripheral_autodiv]

/-- Claim C6 witness: the pending node resolves at parent rate 133000000,
clearing the flag and picking shift 1, the smallest whose candidate fits
under 83000000. -/
theorem autodiv_resolution_witness :
    (clk_sam9x5_peripheral_autodiv periphA 133000000).auto_div = false ∧
    (clk_sam9x5_peripheral_autodiv periphA 0) = periphA :=
  ⟨((autodiv_resolution_behavior periphA 133000000 (by decide) (by decide)).2
      (by decide)).1,
    (autodiv_resolution_behavior periphA 133000000 (by decide) (by decide)).1⟩

/-- One framework operation never re-arms a cleared auto_div flag. -/
theorem applyOp_auto_div_mono (s : ClkSam9x5Peripheral × Sam9x5Hw)
    (op : PeriphOp) (h : s.1.auto_div = false) :
    (applyOp s op).1.auto_div = false := by
  cases op with
  | enable => exact h
  | disable => exact h
  | isEnabled => exact h
  | roundRate r pr => exact h
  | autodiv pr =>
    show (clk_sam9x5_peripheral_autodiv s.1 pr).auto_div = false
    rw [clk_sam9x5_peripheral_autodiv, if_pos h]; exact h
  | setRate r pr =>
    show (clk_sam9x5_peripheral_set_rate s.1 r pr).2.auto_div = false
    rw [clk_sam9x5_peripheral_set_rate]
    split_ifs
    · exact h
    · exact h
    · exact h
    · cases hsr : setRateShift pr r with
      | none => exact h
      | some s0 => rfl
  | recalcRate pr =>
    show (clk_sam9x5_peripheral_recalc_rate s.1 s.2 pr).2.1.auto_div = false
    rw [clk_sam9x5_peripheral_recalc_rate]
    by_cases hid : s.1.id < PERIPHERAL_ID_MIN
    · rw [if_pos hid]; exact h
    · rw [if_neg hid]
      by_cases hen : s.2.pcr (s.1.id &&& s.1.layout.pid_mask) &&&
          AT91_PMC_PCR_EN ≠ 0
      · simp only [if_pos hen]
      · simp only [if_neg hen]
        show (clk_sam9x5_peripheral_autodiv s.1 pr).auto_div = false
        rw [clk_sam9x5_peripheral_autodiv, if_pos h]; exact h

/-- Claim C7: over every sequence of framework operations on an indirect
node, once auto_div is false it stays false; no operation sets it back. -/
theorem auto_div_never_rearms :
    ∀ (ops : List PeriphOp) (s : ClkSam9x5Peripheral × Sam9x5Hw),
    s.1.auto_div = false → (List.foldl applyOp s ops).1.auto_div = false := by
  intro ops
  induction ops with
  | nil => intro s h; exact h
  | cons op rest ih =>
    intro s h
    exact ih (applyOp s op) (applyOp_auto_div_mono s op h)

/-- Claim C7 witness: a concrete operation sequence on a node whose flag
is already clear leaves the flag clear. -/
theorem auto_div_never_rearms_witness :
    (List.foldl applyOp (⟨2, ⟨0, 4⟩, 0, layoutD, false⟩, hw0)
      [PeriphOp.enable, PeriphOp.recalcRate 8, PeriphOp.setRate 4 8,
        PeriphOp.autodiv 5, PeriphOp.disable, PeriphOp.isEnabled,
        PeriphOp.roundRate 3 8]).1.auto_div = false :=
  auto_div_never_rearms _ _ rfl

/-- Setting a bit with an OR leaves the tested mask bit set. -/
theorem or_shl_and_shl_ne_zero (x k : Nat) :
    (x ||| 1 <<< k) &&& (1 <<< k) ≠ 0 := by
  rw [Nat.one_shiftLeft, Nat.and_two_pow]
  simp [Nat.testBit_two_pow_self]

/-- Clearing via clearMask leaves the tested mask bit clear. -/
theorem clearMask_and_shl_eq_zero (x k : Nat) :
    clearMask x (1 <<< k) &&& (1 <<< k) = 0 := by
  rw [clearMask, Nat.one_shiftLeft, Nat.and_two_pow]
  simp [Nat.testBit_two_pow_self]

/-- Claim C8: for every legacy node with id in 2..31, under the bit-array
register mock, enable followed by is_enabled reports 1 and disable
followed by is_enabled reports 0. -/
theorem legacy_enable_disable_status :
    ∀ (periph : ClkPeripheral) (hw : LegacyHw),
    2 ≤ periph.id → periph.id ≤ 31 →
    clk_peripheral_is_enabled periph (clk_peripheral_enable periph hw) = 1 ∧
    clk_peripheral_is_enabled periph (clk_peripheral_disable periph hw) = 0 := by
  intro periph hw h2 h31
  have hn1 : ¬(periph.id < PERIPHERAL_ID_MIN) := by
    simp only [PERIPHERAL_ID_MIN]; omega
  have hn2 : ¬(periph.id > PERIPHERAL_ID_MAX) := by
    simp only [PERIPHERAL_ID_MAX]; omega
  constructor
  · simp only [clk_peripheral_enable, clk_peripheral_is_enabled,
      PERIPHERAL_MASK, if_neg hn1, if_neg hn2]
    rw [if_pos (or_shl_and_shl_ne_zero hw.pcsr (periph.id &&& PERIPHERAL_ID_MAX))]
  · simp only [clk_peripheral_disable, clk_peripheral_is_enabled,
      PERIPHERAL_MASK, if_neg hn1, if_neg hn2]
    rw [if_neg (not_ne_iff.mpr
      (clearMask_and_shl_eq_zero hw.pcsr (periph.id &&& PERIPHERAL_ID_MAX)))]

/-- Claim C8 witness: id 5 on all-zero registers. -/
theorem legacy_enable_disable_status_witness :
    clk_peripheral_is_enabled ⟨5⟩ (clk_peripheral_enable ⟨5⟩ ⟨0, 0⟩) = 1 ∧
    clk_peripheral_is_enabled ⟨5⟩ (clk_peripheral_disable ⟨5⟩ ⟨0, 0⟩) = 0 :=
  legacy_enable_disable_status ⟨5⟩ ⟨0, 0⟩ (by decide) (by decide)

/-- Claim C9 (counterexample): the indirect constructor performs no id
validation, so id 32 with a valid name and parent and successful
allocation and registration yields a node, not an invalid-argument
failure. -/
theorem register_sam9x5_id_above_31_succeeds :
    at91_clk_register_sam9x5_peripheral ⟨0, 0, 0, 0⟩ (some ("x")) (some ("y"))
      32 ⟨0, 0⟩ true 0 0 =
      Except.ok ⟨32, ⟨0, 0⟩, 0, ⟨0, 0, 0, 0⟩, false⟩ := by rfl

/-- Claim C9 (amended): the legacy constructor rejects every id above 31
with invalid-argument regardless of the other arguments, while the
indirect constructor performs no id validation and succeeds for any id
whenever name and parent are present and allocation and registration
succeed. -/
theorem register_id_validation_amended :
    (∀ (name parent_name : Option String) (id : Nat) (allocOk : Bool)
      (hwRet : Int), 31 < id →
      at91_clk_register_peripheral name parent_name id allocOk hwRet =
        Except.error ClkErr.EINVAL) ∧
    (∀ (layout : ClkPcrLayout) (name parent_name : Option String) (id : Nat)
      (range : ClkRange) (pr : Nat), name ≠ none → parent_name ≠ none →
      ∃ node, at91_clk_register_sam9x5_peripheral layout name parent_name id
        range true 0 pr = Except.ok node) := by
  constructor
  · intro name parent_name id allocOk hwRet hid
    rw [at91_clk_register_peripheral,
      if_pos (Or.inr (Or.inr (show id > PERIPHERAL_ID_MAX from hid)))]
  · intro layout name parent_name id range pr hn hp
    rw [at91_clk_register_sam9x5_peripheral, if_neg (by simp [hn, hp]),
      if_neg (by simp), if_neg (by simp)]
    exact ⟨_, rfl⟩

/-- Claim C9 witness: the legacy constructor rejects id 40 even with a
valid name, parent and allocation. -/
theorem register_id_validation_witness :
    at91_clk_register_peripheral (some ("x")) (some ("y")) 40 true 0 =
      Except.error ClkErr.EINVAL :=
  register_id_validation_amended.1 (some ("x")) (some ("y")) 40 true 0 (by decide)
